import Mathlib

/-!
Verification of the anchored block replacer (src/patch.py).

The script reads an artifact, locates a hard-coded start anchor with
`text.find(old)`, locates a hard-coded end marker with
`text.find(marker, start)` (the search starts AT `start`, inclusive),
splices `text[:start] + replacement + text[end+1:]` and writes the result.

We embed Python `str.find(pat, start)` over `List Char` as `findFrom`,
the parameterised core operation as `replace`, and the whole script
(read / compute / write-or-abort) as `runPatch`.
-/

namespace Patch

/-- `matchesAt text pat i = true` iff `pat` occurs in `text` starting at
offset `i` (Python `text[i:i+len(pat)] == pat`). -/
def matchesAt (text pat : List Char) (i : Nat) : Bool :=
  pat.isPrefixOf (text.drop i)

/-- Fuel-indexed scan used by `findFrom`: try offsets `i, i+1, ...`,
`fuel` of them, returning the first match. -/
def findFromAux (text pat : List Char) : Nat → Nat → Option Nat
  | _, 0 => none
  | i, fuel + 1 =>
    if matchesAt text pat i then some i else findFromAux text pat (i + 1) fuel

/-- Embedding of Python `text.find(pat, start)`: the least offset
`i ≥ start` at which `pat` occurs in `text`, or `none` (Python's `-1`).
Candidate offsets run from `start` to `text.length` inclusive, exactly as
in CPython (an empty pattern matches at `text.length` but nowhere past). -/
def findFrom (text pat : List Char) (start : Nat) : Option Nat :=
  findFromAux text pat start (text.length + 1 - start)

/-- The parameterised core of src/patch.py:
`start = text.find(anchor)`; on `-1` fail with `marker not found`;
`e = text.find(marker, start)`; on `-1` fail with `end marker not found`;
otherwise return `text[:start] + repl + text[e+1:]`. -/
def replace (fullText startAnchor endMarker replacementBlock : List Char) :
    Except String (List Char) :=
  match findFrom fullText startAnchor 0 with
  | none => Except.error "marker not found"
  | some s =>
    match findFrom fullText endMarker s with
    | none => Except.error "end marker not found"
    | some e =>
      Except.ok (fullText.take s ++ replacementBlock ++ fullText.drop (e + 1))

/-- The artifact path hard-coded in the script. -/
def artifactPath : String := "src/lib/tryon/production-tryon-pipeline.ts"

/-- The hard-coded start anchor (`old` in the script). -/
def old : List Char := "        if (identitySafe) \x7b".toList

/-- The hard-coded end marker literal passed to the second `find`. -/
def hardMarker : List Char := "\n        \x7d else \x7b".toList

/-- The hard-coded replacement block of the script, verbatim. -/
def replacement : List Char :=
  ("        if (pixelCorrectionEnabled) \x7b\n            // DO NOT TOUCH – IDENTITY INVARIANT\n            // Eyes are read-only biometric pixels copied from Image 1.\n            const eyeAuthorityRule = \x27Eyes are read-only biometric pixels copied from Image 1.\x27\n            console.log(`EYE AUTHORITY LOCK: $\x7beyeAuthorityRule\x7d`)\n            eyePixelData = await extractEyeRegionPixels(originalImageBuffer)\n            if (!eyePixelData) \x7b\n                stages.push(\x7b\n                    stage: 1,\n                    name: \x27Face Pixel Extraction\x27,\n                    status: \x27FAIL\x27,\n                    timeMs: Date.now() - stage1Start,\n                    data: \x7b error: \x27Eye-region extraction failed\x27 \x7d\n                \x7d)\n\n                return \x7b\n                    success: false,\n                    image: \x27\x27,\n                    status: \x27FAIL\x27,\n                    warnings: [\x27Eye-region lock failed. Please use an image with clear visible eyes.\x27],\n                    debug: \x7b stages, totalTimeMs: Date.now() - startTime, faceOverwritten: false \x7d\n                \x7d\n            \x7d\n\n            stages.push(\x7b\n                stage: 1,\n                name: \x27Face Pixel Extraction\x27,\n                status: \x27PASS\x27,\n                timeMs: Date.now() - stage1Start,\n                data: \x7b eyeBox: eyePixelData.box, mode: \x27identitySafe-eye-lock\x27 \x7d\n            \x7d)\n        \x7d else if (identitySafe) \x7b\n            stages.push(\x7b\n                stage: 1,\n                name: \x27Face Pixel Extraction\x27,\n                status: \x27SKIP\x27,\n                timeMs: Date.now() - stage1Start,\n                data: \x7b reason: \x27pixel correction disabled for nano-banana-pro\x27 \x7d\n            \x7d)\n        \x7d\n").toList

/-- Observable outcome of one run of the script: the process exit code,
the diagnostic printed on abort (if any), and the final stored content. -/
structure ProgResult where
  exitCode : Nat
  diagnostic : Option String
  finalContent : List Char

/-- The whole script: the storage collaborator supplies `stored`, the core
computes the rewritten text with the hard-coded literals; a failed find
raises `SystemExit` (exit status 1, message printed, nothing written),
success overwrites the artifact and exits 0. -/
def runPatch (stored : List Char) : ProgResult :=
  match replace stored old hardMarker replacement with
  | Except.error msg => ⟨1, some msg, stored⟩
  | Except.ok newText => ⟨0, none, newText⟩

theorem findFromAux_eq_none (text pat : List Char) :
    ∀ fuel i, findFromAux text pat i fuel = none →
      ∀ j, i ≤ j → j < i + fuel → matchesAt text pat j = false := by
  intro fuel
  induction fuel with
  | zero => intro i _ j _ hj; omega
  | succ n ih =>
    intro i h j hij hj
    by_cases hm : matchesAt text pat i = true
    · simp [findFromAux, hm] at h
    · simp only [findFromAux, hm, if_false, Bool.not_eq_true] at h
      rcases Nat.eq_or_lt_of_le hij with rfl | hlt
      · exact Bool.not_eq_true _ ▸ (by simpa using hm)
      · exact ih (i + 1) h j hlt (by omega)

theorem findFromAux_eq_some (text pat : List Char) :
    ∀ fuel i k, findFromAux text pat i fuel = some k →
      i ≤ k ∧ k < i + fuel ∧ matchesAt text pat k = true ∧
        ∀ j, i ≤ j → j < k → matchesAt text pat j = false := by
  intro fuel
  induction fuel with
  | zero => intro i k h; simp [findFromAux] at h
  | succ n ih =>
    intro i k h
    by_cases hm : matchesAt text pat i = true
    · simp only [findFromAux, hm, if_true, Option.some.injEq] at h
      subst h
      exact ⟨Nat.le_refl _, by omega, hm, fun j h1 h2 => by omega⟩
    · simp only [findFromAux, hm, if_false] at h
      obtain ⟨h1, h2, h3, h4⟩ := ih (i + 1) k h
      refine ⟨by omega, by omega, h3, fun j hj1 hj2 => ?_⟩
      rcases Nat.eq_or_lt_of_le hj1 with rfl | hlt
      · simpa using hm
      · exact h4 j hlt hj2

theorem findFromAux_complete (text pat : List Char) :
    ∀ fuel i k, i ≤ k → k < i + fuel → matchesAt text pat k = true →
      (∀ j, i ≤ j → j < k → matchesAt text pat j = false) →
      findFromAux text pat i fuel = some k := by
  intro fuel
  induction fuel with
  | zero => intro i k h1 h2; omega
  | succ n ih =>
    intro i k h1 h2 hk hleast
    rcases Nat.eq_or_lt_of_le h1 with rfl | hlt
    · simp [findFromAux, hk]
    · have hi : matchesAt text pat i = false := hleast i (Nat.le_refl _) hlt
      simp only [findFromAux, hi, Bool.false_eq_true, if_false]
      exact ih (i + 1) k hlt (by omega) hk fun j hj1 hj2 => hleast j (by omega) hj2

/-- A nonempty pattern can only match strictly inside the text. -/
theorem matchesAt_lt_length (text pat : List Char) (i : Nat) (hp : pat ≠ [])
    (h : matchesAt text pat i = true) : i < text.length := by
  by_contra hle
  push_neg at hle
  unfold matchesAt at h
  rw [List.drop_eq_nil_of_le hle] at h
  cases pat with
  | nil => exact hp rfl
  | cons a l => simp [List.isPrefixOf] at h

/-- `findFrom` soundness: a hit is a match, lies between `start` and
`text.length`, and is the least match at or after `start`. -/
theorem findFrom_eq_some (text pat : List Char) (s k : Nat)
    (h : findFrom text pat s = some k) :
    s ≤ k ∧ k ≤ text.length ∧ matchesAt text pat k = true ∧
      ∀ j, s ≤ j → j < k → matchesAt text pat j = false := by
  obtain ⟨h1, h2, h3, h4⟩ := findFromAux_eq_some text pat _ s k h
  exact ⟨h1, by omega, h3, h4⟩

/-- `findFrom` failure for a nonempty pattern means the pattern matches
nowhere at or after `start`. -/
theorem findFrom_eq_none (text pat : List Char) (s : Nat) (hp : pat ≠ [])
    (h : findFrom text pat s = none) :
    ∀ j, s ≤ j → matchesAt text pat j = false := by
  intro j hj
  by_cases hjl : j < s + (text.length + 1 - s)
  · exact findFromAux_eq_none text pat _ s h j hj hjl
  · by_contra hm
    rw [Bool.not_eq_false] at hm
    have := matchesAt_lt_length text pat j hp hm
    omega

/-- `findFrom` completeness: the least match at or after `start` is found. -/
theorem findFrom_complete (text pat : List Char) (s k : Nat) (h1 : s ≤ k)
    (h2 : k ≤ text.length) (hk : matchesAt text pat k = true)
    (hleast : ∀ j, s ≤ j → j < k → matchesAt text pat j = false) :
    findFrom text pat s = some k :=
  findFromAux_complete text pat _ s k h1 (by omega) hk hleast

/-- C1: counterexample. On `fullText = "xSyEz"`, anchor `"S"` (found at
offset 1), marker `"E"` (found at offset 3), replacement `"R"`, the code
returns `"xRz"`, which differs from the spec formula
`fullText[0..1) ++ "R" ++ fullText[3..)` (= `"xREz"`), and the end-marker
literal does not reappear immediately after the spliced block (offset
`1 + 1 = 2` of the output holds `z`, not `E`). -/
theorem c1_spec_splice_counterexample :
    findFrom "xSyEz".toList "S".toList 0 = some 1 ∧
    findFrom "xSyEz".toList "E".toList 1 = some 3 ∧
    replace "xSyEz".toList "S".toList "E".toList "R".toList =
      Except.ok "xRz".toList ∧
    "xRz".toList ≠
      "xSyEz".toList.take 1 ++ "R".toList ++ "xSyEz".toList.drop 3 ∧
    matchesAt "xRz".toList "E".toList 2 = false :=
  ⟨by decide, by decide, by rfl, by decide, by decide⟩

/-- C1 (amended): when the start anchor is found at `s` and the end marker
at `e`, the output is `fullText[0..s) ++ replacementBlock ++
fullText[e+1 ..)`: the prefix before the anchor and every character at
offsets `≥ e + 1` are byte-for-byte unchanged, but the character at offset
`e` — the first character of the end-marker match — is dropped, so the
end-marker occurrence found at `e` is not preserved intact. -/
theorem replace_locality (t a m r : List Char) (s e : Nat)
    (h1 : findFrom t a 0 = some s) (h2 : findFrom t m s = some e) :
    replace t a m r = Except.ok (t.take s ++ r ++ t.drop (e + 1)) ∧
      (t.take s ++ r ++ t.drop (e + 1)).take s = t.take s ∧
      (t.take s ++ r ++ t.drop (e + 1)).drop (s + r.length) = t.drop (e + 1) := by
  have hs : s ≤ t.length := (findFrom_eq_some t a 0 s h1).2.1
  have hlen : (t.take s).length = s := by rw [List.length_take]; omega
  refine ⟨by simp [replace, h1, h2], ?_, ?_⟩
  · rw [List.append_assoc]
    exact List.take_left' hlen
  · exact List.drop_left' (by rw [List.length_append, hlen])

/-- Witness for C1 (amended) at `fullText = "xSyEz"`, anchor `"S"`,
marker `"E"`, replacement `"R"`. -/
theorem replace_locality_witness :
    replace "xSyEz".toList "S".toList "E".toList "R".toList =
      Except.ok ("xSyEz".toList.take 1 ++ "R".toList ++ "xSyEz".toList.drop 4) ∧
      ("xSyEz".toList.take 1 ++ "R".toList ++ "xSyEz".toList.drop 4).take 1 =
        "xSyEz".toList.take 1 ∧
      ("xSyEz".toList.take 1 ++ "R".toList ++ "xSyEz".toList.drop 4).drop
          (1 + "R".toList.length) = "xSyEz".toList.drop 4 :=
  replace_locality "xSyEz".toList "S".toList "E".toList "R".toList 1 3
    (by decide) (by decide)

/-- C2: counterexample to the clause "the end marker does not reappear
verbatim in the output": on `fullText = "A\nB"`, anchor `"A"`, marker
`"\nB"`, replacement `"\n"`, the code returns `"\nB"`, in which the end
marker occurs verbatim (at offset 0). -/
theorem c2_marker_reappearance_counterexample :
    replace "A\nB".toList "A".toList "\nB".toList "\n".toList =
      Except.ok "\nB".toList ∧
    findFrom "\nB".toList "\nB".toList 0 = some 0 :=
  ⟨by rfl, by decide⟩

/-- C2 (amended): the code computes
`fullText[0..s) ++ replacementBlock ++ fullText[e+1 ..)` — exactly one
character, the one at offset `e` (the first character of the end-marker
match), is dropped from the preserved tail relative to the spec's
`fullText[e ..)`; the end marker may nevertheless reappear in the output
if the replacement or the remaining text recreates it. -/
theorem replace_splice (t a m r : List Char) (s e : Nat)
    (h1 : findFrom t a 0 = some s) (h2 : findFrom t m s = some e) :
    replace t a m r = Except.ok (t.take s ++ r ++ t.drop (e + 1)) ∧
      (e < t.length → (t.drop (e + 1)).length + 1 = (t.drop e).length) := by
  refine ⟨by simp [replace, h1, h2], fun he => ?_⟩
  rw [List.length_drop, List.length_drop]
  omega

/-- Witness for C2 (amended) at `fullText = "abc<<START>>old<<END>>xyz"`,
anchor `"<<START>>"` (offset 3), marker `"<<END>>"` (offset 15),
replacement `"new"`. -/
theorem replace_splice_witness :
    replace "abc<<START>>old<<END>>xyz".toList "<<START>>".toList
        "<<END>>".toList "new".toList =
      Except.ok ("abc<<START>>old<<END>>xyz".toList.take 3 ++ "new".toList ++
        "abc<<START>>old<<END>>xyz".toList.drop 16) ∧
      (15 < "abc<<START>>old<<END>>xyz".toList.length →
        ("abc<<START>>old<<END>>xyz".toList.drop 16).length + 1 =
          ("abc<<START>>old<<END>>xyz".toList.drop 15).length) :=
  replace_splice "abc<<START>>old<<END>>xyz".toList "<<START>>".toList
    "<<END>>".toList "new".toList 3 15 (by decide) (by decide)

/-- C3: counterexample. On `fullText = "ab"`, anchor `"a"` (found at
offset 0), marker `"ab"`, the marker's only occurrence is at the
start-anchor's own offset 0 (there is none strictly after it), yet the
call succeeds instead of failing with `end marker not found`: the search
is inclusive of the anchor offset, not strictly after it. -/
theorem c3_inclusive_search_counterexample :
    findFrom "ab".toList "a".toList 0 = some 0 ∧
    findFrom "ab".toList "ab".toList 0 = some 0 ∧
    findFrom "ab".toList "ab".toList 1 = none ∧
    replace "ab".toList "a".toList "ab".toList "Z".toList =
      Except.ok "Zb".toList :=
  ⟨by decide, by decide, by decide, by rfl⟩

/-- C3 (amended): the end-marker search begins AT the start-anchor offset
(inclusive); with the anchor found at `s`, the call fails with
`end marker not found` exactly when every occurrence of the (nonempty)
end marker lies strictly before `s`, and an occurrence at the very anchor
offset does bound the region. -/
theorem replace_endMarker_search (t a m r : List Char) (s : Nat)
    (hm : m ≠ []) (h1 : findFrom t a 0 = some s) :
    (replace t a m r = Except.error "end marker not found" ↔
      ∀ j, s ≤ j → matchesAt t m j = false) ∧
    (matchesAt t m s = true → findFrom t m s = some s) := by
  constructor
  · constructor
    · intro h
      cases h2 : findFrom t m s with
      | none => exact findFrom_eq_none t m s hm h2
      | some e => simp [replace, h1, h2] at h
    · intro hall
      cases h2 : findFrom t m s with
      | none => simp [replace, h1, h2]
      | some e =>
        obtain ⟨he1, _, he3, _⟩ := findFrom_eq_some t m s e h2
        have hc := hall e he1
        rw [he3] at hc
        simp at hc
  · intro hms
    have hsl : s < t.length := matchesAt_lt_length t m s hm hms
    exact findFrom_complete t m s s (Nat.le_refl _) (by omega) hms
      (fun j hj1 hj2 => by omega)

/-- Witness for C3 (amended): at `fullText = "ab"`, anchor `"a"`, marker
`"ab"`, the marker occurrence at the anchor's own offset 0 bounds the
region. -/
theorem replace_endMarker_search_witness :
    findFrom "ab".toList "ab".toList 0 = some 0 :=
  (replace_endMarker_search "ab".toList "a".toList "ab".toList "Z".toList 0
      (by decide) (by decide)).2 (by decide)

/-- C4: counterexample. On the claimed input the code returns
`"X<END>>Y"` (the `<` at the end-marker offset is dropped), not the
claimed `"X<<END>>Y"`. -/
theorem c4_example_counterexample :
    replace "X<<START>>a<<START>>b<<END>>Y".toList "<<START>>".toList
        "<<END>>".toList [] = Except.ok "X<END>>Y".toList ∧
    replace "X<<START>>a<<START>>b<<END>>Y".toList "<<START>>".toList
        "<<END>>".toList [] ≠ Except.ok "X<<END>>Y".toList := by
  refine ⟨by rfl, fun h => ?_⟩
  exact absurd (Except.ok.inj h) (by decide)

/-- C4 (amended): on `fullText = "X<<START>>a<<START>>b<<END>>Y"`, anchor
`"<<START>>"`, marker `"<<END>>"`, empty replacement, the call succeeds
and returns exactly `"X<END>>Y"`. -/
theorem replace_example4 :
    replace "X<<START>>a<<START>>b<<END>>Y".toList "<<START>>".toList
        "<<END>>".toList [] = Except.ok "X<END>>Y".toList := by rfl

/-- C5: counterexample. On the claimed input the code returns
`"abcnew<END>>xyz"` — the start anchor is consumed (the splice keeps only
`fullText[0..start)`) and the first character of the end marker is
dropped — not the claimed `"abc<<START>>new<<END>>xyz"`. -/
theorem c5_example_counterexample :
    replace "abc<<START>>old<<END>>xyz".toList "<<START>>".toList
        "<<END>>".toList "new".toList =
      Except.ok "abcnew<END>>xyz".toList ∧
    replace "abc<<START>>old<<END>>xyz".toList "<<START>>".toList
        "<<END>>".toList "new".toList ≠
      Except.ok "abc<<START>>new<<END>>xyz".toList := by
  refine ⟨by rfl, fun h => ?_⟩
  exact absurd (Except.ok.inj h) (by decide)

/-- C5 (amended): on `fullText = "abc<<START>>old<<END>>xyz"`, anchor
`"<<START>>"`, marker `"<<END>>"`, replacement `"new"`, the call succeeds
and returns exactly `"abcnew<END>>xyz"`. -/
theorem replace_example1 :
    replace "abc<<START>>old<<END>>xyz".toList "<<START>>".toList
        "<<END>>".toList "new".toList =
      Except.ok "abcnew<END>>xyz".toList := by rfl

/-- C6: first-match rule. If the (nonempty) start anchor occurs at
`o1 < o2` with `o1` its first occurrence, then the replaced region starts
at `o1` — the anchor search returns `o1` regardless of the replacement
block — and on success the output begins with `fullText[0..o1)`; the
later occurrence `o2` is irrelevant to the call. -/
theorem replace_first_match (t a m r out : List Char) (o1 o2 : Nat)
    (ha : a ≠ []) (h1 : matchesAt t a o1 = true)
    (hfirst : ∀ j, j < o1 → matchesAt t a j = false)
    (h12 : o1 < o2) (h2 : matchesAt t a o2 = true)
    (hout : replace t a m r = Except.ok out) :
    findFrom t a 0 = some o1 ∧ out.take o1 = t.take o1 := by
  have ho1 : o1 < t.length := matchesAt_lt_length t a o1 ha h1
  have hf : findFrom t a 0 = some o1 :=
    findFrom_complete t a 0 o1 (Nat.zero_le _) (by omega) h1
      (fun j _ hj => hfirst j hj)
  refine ⟨hf, ?_⟩
  cases h2e : findFrom t m o1 with
  | none => simp [replace, hf, h2e] at hout
  | some e =>
    simp only [replace, hf, h2e, Except.ok.injEq] at hout
    rw [← hout, List.append_assoc]
    exact List.take_left' (by rw [List.length_take]; omega)

/-- Witness for C6 at `fullText = "XSaSbEY"`, anchor `"S"` (occurrences at
offsets 1 and 3), marker `"E"`, replacement `"R"`; the output is `"XRY"`. -/
theorem replace_first_match_witness :
    findFrom "XSaSbEY".toList "S".toList 0 = some 1 ∧
      "XRY".toList.take 1 = "XSaSbEY".toList.take 1 :=
  replace_first_match "XSaSbEY".toList "S".toList "E".toList "R".toList
    "XRY".toList 1 3 (by decide) (by decide) (by decide) (by decide)
    (by decide) (by rfl)

/-- C7: failure atomicity of the script. For every stored artifact text,
if the hard-coded replacement fails (either find misses), the run leaves
the stored content unchanged and exits nonzero — nothing is written; if
it succeeds, the complete rewritten text is written. All-or-nothing. -/
theorem runPatch_atomic (t : List Char) :
    (∀ msg, replace t old hardMarker replacement = Except.error msg →
      (runPatch t).finalContent = t ∧ (runPatch t).exitCode = 1) ∧
    (∀ out, replace t old hardMarker replacement = Except.ok out →
      (runPatch t).finalContent = out ∧ (runPatch t).exitCode = 0) := by
  constructor
  · intro msg h
    simp [runPatch, h]
  · intro out h
    simp [runPatch, h]

/-- Witness for C7: on the empty artifact the anchor is absent, the run
fails, and the stored content is unchanged with exit code 1. -/
theorem runPatch_atomic_witness :
    (runPatch []).finalContent = [] ∧ (runPatch []).exitCode = 1 :=
  (runPatch_atomic []).1 "marker not found" (by rfl)

/-- C8: exit behaviour of the script. If the start anchor is absent the
run aborts with exit code 1, diagnostic `marker not found`, and no write
(the end-marker search result is never consulted); if the anchor is found
at `s` but the end marker is absent from offset `s` on, the run aborts
with exit code 1, diagnostic `end marker not found`, and no write; on
success the run writes the rewritten text and exits 0 with no diagnostic.
The two diagnostics are distinct, identifying which marker was missing. -/
theorem runPatch_exit (t : List Char) :
    (findFrom t old 0 = none →
      runPatch t = ⟨1, some "marker not found", t⟩) ∧
    (∀ s, findFrom t old 0 = some s → findFrom t hardMarker s = none →
      runPatch t = ⟨1, some "end marker not found", t⟩) ∧
    (∀ out, replace t old hardMarker replacement = Except.ok out →
      runPatch t = ⟨0, none, out⟩) ∧
    ("marker not found" ≠ "end marker not found") := by
  refine ⟨?_, ?_, ?_, by decide⟩
  · intro h
    simp [runPatch, replace, h]
  · intro s h1 h2
    simp [runPatch, replace, h1, h2]
  · intro out h
    simp [runPatch, h]

/-- Witness for C8: on the empty artifact the anchor is absent and the
run aborts with exit code 1 and the `marker not found` diagnostic,
leaving the stored content unchanged. -/
theorem runPatch_exit_witness :
    runPatch [] = ⟨1, some "marker not found", []⟩ :=
  (runPatch_exit []).1 (by decide)

/-- C9: determinism / purity. `replace` is a pure function of its four
inputs: two calls on identical inputs yield identical results (identical
outputs and identical failure outcomes). -/
theorem replace_deterministic (t1 t2 a1 a2 m1 m2 r1 r2 : List Char)
    (ht : t1 = t2) (ha : a1 = a2) (hm : m1 = m2) (hr : r1 = r2) :
    replace t1 a1 m1 r1 = replace t2 a2 m2 r2 := by
  subst ht; subst ha; subst hm; subst hr; rfl

/-- Witness for C9 at a concrete input. -/
theorem replace_deterministic_witness :
    replace "abc".toList "b".toList "c".toList "Z".toList =
      replace "abc".toList "b".toList "c".toList "Z".toList :=
  replace_deterministic "abc".toList "abc".toList "b".toList "b".toList
    "c".toList "c".toList "Z".toList "Z".toList rfl rfl rfl rfl

/-- C10: implicit safety invariant. When the anchor is found at `s` and
the end-marker search (begun at `s`) succeeds at `e`, then `s ≤ e` — an
end-marker occurrence strictly before the start anchor never bounds the
region — both offsets lie within the text, the captured region `[s, e)`
has non-negative length, and the three-way slice-and-concatenate is well
defined, producing the spliced output. -/
theorem replace_region_wf (t a m r : List Char) (s e : Nat)
    (h1 : findFrom t a 0 = some s) (h2 : findFrom t m s = some e) :
    s ≤ e ∧ s ≤ t.length ∧ e ≤ t.length ∧
      replace t a m r = Except.ok (t.take s ++ r ++ t.drop (e + 1)) := by
  obtain ⟨hse, hel, _, _⟩ := findFrom_eq_some t m s e h2
  exact ⟨hse, le_trans hse hel, hel, by simp [replace, h1, h2]⟩

/-- Witness for C10 at `fullText = "aXbYc"`, anchor `"X"` (offset 1),
marker `"Y"` (offset 3), replacement `"R"`. -/
theorem replace_region_wf_witness :
    1 ≤ 3 ∧ 1 ≤ "aXbYc".toList.length ∧ 3 ≤ "aXbYc".toList.length ∧
      replace "aXbYc".toList "X".toList "Y".toList "R".toList =
        Except.ok ("aXbYc".toList.take 1 ++ "R".toList ++
          "aXbYc".toList.drop 4) :=
  replace_region_wf "aXbYc".toList "X".toList "Y".toList "R".toList 1 3
    (by decide) (by decide)

end Patch
